import Mathlib

/-!
Shallow embedding of the core of `update_paw.py` (incremental Scopus fetch
and merge for a bibliographic store) and `load_db`'s schema completion,
together with proofs settling the frozen claims about that code.

Modelling conventions:
* a calendar date is its day index (days since 1970-01-01), as Python's
  `date` plus `timedelta` arithmetic;
* pandas cells that may be NaN/NaT/None are `Option` values;
* the external `ScopusSearch` call is an oracle `String → SearchOutcome`
  passed explicitly to the fetcher;
* exceptions are `Except` values: a raised (or re-raised) exception is
  `Except.error`.
-/

namespace PawTracker

/-- A calendar date, identified with its day index (days since 1970-01-01).
`date + timedelta(days = n)` is `addDays n`. -/
structure Date where
  days : Int
deriving DecidableEq, Repr

def Date.addDays (d : Date) (n : Int) : Date := ⟨d.days + n⟩

/-- Gregorian year of a day index, by the standard civil-from-days
computation (valid for the CE day indices Python's `date` supports, where
`days + 719468 ≥ 0`, so truncating and floor division agree). -/
def Date.year (d : Date) : Int :=
  let z : Int := d.days + 719468
  let era : Int := z / 146097
  let doe : Int := z - era * 146097
  let yoe : Int := (doe - doe / 1460 + doe / 36524 - doe / 146096) / 365
  let y : Int := yoe + era * 400
  let doy : Int := doe - (365 * yoe + yoe / 4 - yoe / 100)
  let mp : Int := (5 * doy + 2) / 153
  let m : Int := if mp < 10 then mp + 3 else mp - 9
  if m ≤ 2 then y + 1 else y

/-- `unix_seconds`: UTC midnight of the date as a Unix timestamp. -/
def unix_seconds (d : Date) : Int := d.days * 86400

/-- `SEARCH_TERMS` from the configuration block. -/
def SEARCH_TERMS : String :=
  "TITLE-ABS-KEY(\"plasma-activated water\" OR \"plasma activated water\" OR \"plasma-activated liquid*\" OR \"plasma activated liquid*\" OR \"plasma-activated liquids\" OR \"plasma activated liquids\")"

/-- `OVERLAP_DAYS` from the configuration block. -/
def OVERLAP_DAYS : Int := 2

/-- `build_query(day_start, day_end)`. -/
def build_query (day_start day_end : Date) : String :=
  SEARCH_TERMS ++ " AND ORIG-LOAD-DATE AFT " ++ toString (unix_seconds day_start)
    ++ " AND ORIG-LOAD-DATE BEF " ++ toString (unix_seconds day_end)

/-- `daterange(d0, d1)`: the days `d` with `d0 ≤ d < d1`, in order. -/
def daterange (d0 d1 : Date) : List Date :=
  (List.range (d1.days - d0.days).toNat).map (fun i => ⟨d0.days + i⟩)

/-- A fetched Scopus record, with the attributes `append_new_rows` reads
(`getattr(r, field, None)`-style access makes each one optional). -/
structure FetchedRecord where
  eid : Option String := none
  doi : Option String := none
  coverDate : Option String := none
  title : Option String := none
  author_names : Option String := none
  publicationName : Option String := none
  subtypeDescription : Option String := none
  citedby_count : Option Int := none
  scopus_url : Option String := none
  description : Option String := none
  authkeywords : Option String := none
deriving DecidableEq, Repr

/-- Exceptions a `ScopusSearch` call can raise.  `scopus400` and
`scopusQueryError` are the two types the fetcher's `except` clause
catches; `otherExc` stands for any other exception (transport failure,
server error, timeout), which that clause does not catch. -/
inductive ScopusErr where
  | scopus400 (msg : String)
  | scopusQueryError (msg : String)
  | otherExc (msg : String)
deriving DecidableEq, Repr

/-- Outcome of one `ScopusSearch(query, ...)` call: its `results`
attribute (a possibly empty list, for `None` results an empty list), or a
raised exception. -/
inductive SearchOutcome where
  | ok (results : List FetchedRecord)
  | err (e : ScopusErr)
deriving DecidableEq, Repr

/-- Whether `needle` occurs at the start of `hay` (on character lists). -/
def charsStartWith : List Char → List Char → Bool
  | [], _ => true
  | _ :: _, [] => false
  | a :: as, b :: bs => a == b && charsStartWith as bs

/-- Whether `needle` occurs contiguously anywhere in `hay`. -/
def charsHaveSub (needle : List Char) : List Char → Bool
  | [] => charsStartWith needle []
  | b :: bs => charsStartWith needle (b :: bs) || charsHaveSub needle bs

/-- Python's `"exceeds the maximum number" in str(e).lower()`. -/
def msgSaysCap (msg : String) : Bool :=
  charsHaveSub "exceeds the maximum number".toList msg.toLower.toList

/-- The fetcher's cap-exceeded test on a caught exception `e`:
`"exceeds the maximum number" in str(e).lower() or isinstance(e, Scopus400Error)`.
An uncaught exception never reaches this test. -/
def isCapCondition : ScopusErr → Bool
  | .scopus400 _ => true
  | .scopusQueryError msg => msgSaysCap msg
  | .otherExc _ => false

/-- Python's `range(start, stop)` on integers, as a start and a count. -/
def intRange (start : Int) : Nat → List Int
  | 0 => []
  | n + 1 => start :: intRange (start + 1) n

/-- `fallback_years = list(range(2000, end_date.year + 2))`. -/
def fallback_years (end_date : Date) : List Int :=
  intRange 2000 (end_date.year + 2 - 2000).toNat

/-- One fallback sub-query: `q_base AND PUBYEAR = year`. -/
def fallbackQuery (q_base : String) (year : Int) : String :=
  q_base ++ " AND PUBYEAR = " ++ toString year

/-- The fallback loop over `fallback_years`: each year's sub-query is
attempted once; results are accumulated; any exception on a sub-query is
caught and contributes nothing. -/
def runFallback (search : String → SearchOutcome) (q_base : String)
    (years : List Int) : List FetchedRecord :=
  years.foldl
    (fun acc y =>
      match search (fallbackQuery q_base y) with
      | .ok rs => acc ++ rs
      | .err _ => acc)
    []

/-- Processing of one day bucket `d` inside `scopus_daily_search`:
query the whole day; on a caught cap-exceeded exception fall back to
per-publication-year sub-queries; on a caught non-cap exception re-raise
as `RuntimeError`; an uncaught exception propagates as itself. -/
def processDay (search : String → SearchOutcome) (end_date : Date)
    (d : Date) : Except String (List FetchedRecord) :=
  let q_base := build_query d (d.addDays 1)
  match search q_base with
  | .ok rs => .ok rs
  | .err (.otherExc msg) => .error msg
  | .err e =>
    if isCapCondition e then
      .ok (runFallback search q_base (fallback_years end_date))
    else
      .error ("Falha crítica na busca para o dia " ++ toString d.days ++ ".")

/-- `scopus_daily_search(start_date, end_date)`: day-by-day search over
the half-open window; the first uncaught or re-raised exception aborts
the whole fetch. -/
def scopus_daily_search (search : String → SearchOutcome)
    (start_date end_date : Date) : Except String (List FetchedRecord) :=
  (daterange start_date end_date).foldlM
    (fun acc d => do
      let rs ← processDay search end_date d
      pure (acc ++ rs))
    []

/- ===== Store model and the merge engine (`append_new_rows`) ===== -/

/-- Python's `str.strip()` on a character list: drop whitespace from both
ends. -/
def stripChars (l : List Char) : List Char :=
  ((l.dropWhile Char.isWhitespace).reverse.dropWhile Char.isWhitespace).reverse

/-- Python's `str.strip()`. -/
def pyStrip (s : String) : String := String.mk (stripChars s.toList)

theorem dropWhile_self (p : α → Bool) (l : List α) :
    (l.dropWhile p).dropWhile p = l.dropWhile p := by
  induction l with
  | nil => simp
  | cons a t ih =>
    by_cases h : p a
    · simp [List.dropWhile_cons, h, ih]
    · simp [List.dropWhile_cons, h]

theorem dropWhile_append_singleton {p : α → Bool} {a : α} (h : p a = false)
    (xs : List α) : (xs ++ [a]).dropWhile p = xs.dropWhile p ++ [a] := by
  rw [List.dropWhile_append]
  split
  · next he =>
    rw [List.isEmpty_iff] at he
    simp [he, List.dropWhile_cons, h]
  · rfl

theorem dropWhile_stripChars (l : List Char) :
    (stripChars l).dropWhile Char.isWhitespace = stripChars l := by
  unfold stripChars
  cases hm : l.dropWhile Char.isWhitespace with
  | nil => simp
  | cons a t =>
    have ha : Char.isWhitespace a = false := by
      have := List.head_dropWhile_not Char.isWhitespace l (by simp [hm])
      simpa [hm] using this
    rw [List.reverse_cons, dropWhile_append_singleton ha]
    rw [List.reverse_append]
    simp [List.dropWhile_cons, ha]

theorem stripChars_idem (l : List Char) :
    stripChars (stripChars l) = stripChars l := by
  conv_lhs => rw [stripChars, dropWhile_stripChars]
  rw [stripChars, List.reverse_reverse, dropWhile_self, ← stripChars]

theorem pyStrip_idem (s : String) : pyStrip (pyStrip s) = pyStrip s := by
  show String.mk (stripChars (stripChars s.toList)) = String.mk (stripChars s.toList)
  rw [stripChars_idem]

/-- A row of the store, with the columns the core reads or writes
(`EID`, `DOI_clean`, `Added_to_db`, `Year`, `Title`, `Duplicate DOI`,
and the purely written output columns).  Cells that may be NaN/NaT/None
are `Option` values; `added` holds the `Added_to_db` timestamp after
datetime coercion. -/
structure Row where
  eid : Option String := none
  doi : Option String := none
  added : Option Date := none
  year : Option String := none
  title : Option String := none
  authors : Option String := none
  sourceTitle : Option String := none
  docType : Option String := none
  citedBy : Option Int := none
  link : Option String := none
  abstract : Option String := none
  keywords : Option String := none
  paw : Option String := none
  screening : Option String := none
  dupDoi : Option String := none
deriving DecidableEq, Repr

/-- The tabular store.  `hasDupDoiCol` records whether the `Duplicate
DOI` column exists, `hasYearCol` whether the `Year` column exists (the
remaining columns the core touches are guaranteed by `load_db`). -/
structure DataFrame where
  hasDupDoiCol : Bool := false
  hasYearCol : Bool := false
  rows : List Row := []
deriving DecidableEq, Repr

/-- The non-NaN primary identifiers of a row list, stripped. -/
def eidsOf (rows : List Row) : List String :=
  (rows.filterMap Row.eid).map pyStrip

/-- The non-NaN secondary identifiers of a row list, stripped. -/
def doisOf (rows : List Row) : List String :=
  (rows.filterMap Row.doi).map pyStrip

/-- `set(df["EID"].dropna().astype(str).str.strip())`: the non-NaN
primary identifiers of the store, stripped.  (Membership below is what
the set is used for.) -/
def existing_eids (df : DataFrame) : List String := eidsOf df.rows

/-- `set(df["DOI_clean"].dropna().astype(str).str.strip())`. -/
def existing_dois (df : DataFrame) : List String := doisOf df.rows

/-- The record's stripped `eid` attribute: `(getattr(r, "eid", None) or "").strip()`. -/
def recEid (r : FetchedRecord) : String := pyStrip (r.eid.getD "")

/-- The record's stripped `doi` attribute. -/
def recDoi (r : FetchedRecord) : String := pyStrip (r.doi.getD "")

/-- The novelty filter of the merge loop: a record is kept unless its
stripped EID is empty or already present, or its stripped DOI is
non-empty and already present. -/
def keepRecord (eids dois : List String) (r : FetchedRecord) : Bool :=
  if recEid r = "" || eids.contains (recEid r) then false
  else if recDoi r ≠ "" && dois.contains (recDoi r) then false
  else true

/-- `year = cover.split("-")[0] if cover else None`. -/
def coverYear (cover : Option String) : Option String :=
  match cover with
  | none => none
  | some c => if c = "" then none else some ((c.splitOn "-").headD "")

/-- The row built for a kept record (`row = {c: None for c in df.columns}`
followed by the explicit field assignments; un-assigned columns stay
`None`). -/
def mkRow (today : Date) (r : FetchedRecord) : Row :=
  { paw := some "YES"
    screening := some "NEW"
    year := coverYear r.coverDate
    title := r.title
    authors := r.author_names
    sourceTitle := r.publicationName
    docType := r.subtypeDescription
    citedBy := r.citedby_count
    doi := if recDoi r = "" then none else some (recDoi r)
    link := r.scopus_url
    abstract := r.description
    keywords := r.authkeywords
    eid := some (recEid r)
    added := some today }

/-- One row of the `Duplicate DOI` recomputation: set the flag to
`"YES"` when the row's `DOI_clean` is non-empty and occurs on at least
two rows of `rows`; otherwise leave the row as it is. -/
def flagRow (rows : List Row) (q : Row) : Row :=
  match q.doi with
  | some s =>
      if s ≠ "" && rows.countP (fun p => p.doi == some s) ≥ 2 then
        { q with dupDoi := some "YES" }
      else q
  | none => q

/-- The `Duplicate DOI` recomputation over the whole concatenated store:
rows whose non-empty `DOI_clean` value occurs on at least two rows get
the flag set to `"YES"`; all other cells (and all other rows) are left
as they are. -/
def markDup (rows : List Row) : List Row :=
  rows.map (flagRow rows)

/-- Key order on `Added_to_db`: strictly more recent first, NaT last. -/
def addedLT (a b : Option Date) : Bool :=
  match a, b with
  | some x, some y => y.days < x.days
  | some _, none => true
  | none, _ => false

/-- Key order on `Year` (descending, nulls last, non-strict). -/
def yearGE (a b : Option String) : Bool :=
  match a, b with
  | some x, some y => !(decide (x < y))
  | some _, none => true
  | none, some _ => false
  | none, none => true

/-- The lexicographic sort key of
`sort_values(by=["Added_to_db", "Year"], ascending=[False, False],
na_position="last")`: `p` comes no later than `q`. -/
def rowLE (p q : Row) : Bool :=
  addedLT p.added q.added || (p.added == q.added && yearGE p.year q.year)

/-- `rowLE` as a relation. -/
def rowR (p q : Row) : Prop := rowLE p q = true

instance : DecidableRel rowR := fun p q => instDecidableEqBool (rowLE p q) true

/-- The final re-sort: pandas' multi-key `sort_values` is a stable sort
by `rowLE`, realised as insertion sort. -/
def sortRows (rows : List Row) : List Row :=
  rows.insertionSort rowR

/-- The `new_rows` accumulator of the merge loop: one row per record
that survives the novelty filter, in fetch order. -/
def newRowsOf (df : DataFrame) (results : List FetchedRecord)
    (today : Date) : List Row :=
  (results.filter (keepRecord (existing_eids df) (existing_dois df))).map
    (mkRow today)

/-- `append_new_rows(df, results, today)`: filter the fetched records
against the identifier sets of `df`, build a row per survivor, and if
any survive, concatenate, recompute the duplicate-DOI flag (when the
column exists), and re-sort.  The new rows always carry a `Year` key, so
the concatenated frame always has the `Year` column and the two-key sort
branch is the one taken. -/
def append_new_rows (df : DataFrame) (results : List FetchedRecord)
    (today : Date) : DataFrame :=
  let new_rows := newRowsOf df results today
  if new_rows = [] then df
  else
    let concatRows := df.rows ++ new_rows
    let flagged := if df.hasDupDoiCol then markDup concatRows else concatRows
    { hasDupDoiCol := df.hasDupDoiCol
      hasYearCol := true
      rows := sortRows flagged }

/- ===== Window planner (`get_last_added_date` and the window code of
`main`) ===== -/

/-- Running-maximum step over the non-NaT `Added_to_db` values. -/
def maxStep (acc : Option Date) (d : Date) : Option Date :=
  match acc with
  | none => some d
  | some m => if m.days < d.days then some d else some m

/-- `get_last_added_date(df)`: the maximum non-NaT `Added_to_db` value,
or `None` when there is none. -/
def get_last_added_date (df : DataFrame) : Option Date :=
  (df.rows.filterMap Row.added).foldl maxStep none

/-- The window computation of `main`: start is `last - OVERLAP_DAYS` when
a last ingestion date exists and `today - 1` otherwise; end is
`today + 1`. -/
def plan_window (df : DataFrame) (today : Date) : Date × Date :=
  ((match get_last_added_date df with
    | none => today.addDays (-1)
    | some last => last.addDays (-OVERLAP_DAYS)),
   today.addDays 1)

/- ===== `load_db` schema completion ===== -/

/-- The column set of the spreadsheet file, which is what `load_db`'s
schema completion operates on. -/
structure ExcelFile where
  cols : List String := []
deriving DecidableEq, Repr

/-- The column completion inside `load_db`: create `EID`, `DOI_clean`
and `Added_to_db` (empty) when missing. -/
def ensureCols (f : ExcelFile) : ExcelFile :=
  let c1 := if f.cols.contains "EID" then f.cols else f.cols ++ ["EID"]
  let c2 := if c1.contains "DOI_clean" then c1 else c1 ++ ["DOI_clean"]
  let c3 := if c2.contains "Added_to_db" then c2 else c2 ++ ["Added_to_db"]
  ⟨c3⟩

/-- `load_db()`: raise `FileNotFoundError` when the file is absent,
otherwise read it and complete the essential columns. -/
def load_db (file : Option ExcelFile) : Except String ExcelFile :=
  match file with
  | none => .error "Arquivo não encontrado"
  | some f => .ok (ensureCols f)

/- ===== Helper lemmas ===== -/

theorem foldl_maxStep_some (t : List Date) (a : Date) :
    ∃ m, t.foldl maxStep (some a) = some m ∧ (m = a ∨ m ∈ t) ∧
      a.days ≤ m.days ∧ ∀ d ∈ t, d.days ≤ m.days := by
  induction t generalizing a with
  | nil => exact ⟨a, rfl, Or.inl rfl, le_refl _, by simp⟩
  | cons d t ih =>
    by_cases h : a.days < d.days
    · obtain ⟨m, hm, hmem, hle, hall⟩ := ih d
      refine ⟨m, ?_, ?_, ?_, ?_⟩
      · simpa [maxStep, h] using hm
      · rcases hmem with h1 | h1
        · exact Or.inr (h1 ▸ List.mem_cons_self d t)
        · exact Or.inr (List.mem_cons_of_mem d h1)
      · omega
      · intro x hx
        rcases List.mem_cons.mp hx with h1 | h1
        · subst h1; exact hle
        · exact hall x h1
    · obtain ⟨m, hm, hmem, hle, hall⟩ := ih a
      refine ⟨m, ?_, ?_, hle, ?_⟩
      · simpa [maxStep, h] using hm
      · rcases hmem with h1 | h1
        · exact Or.inl h1
        · exact Or.inr (List.mem_cons_of_mem d h1)
      · intro x hx
        rcases List.mem_cons.mp hx with h1 | h1
        · subst h1; omega
        · exact hall x h1

theorem get_last_spec (df : DataFrame) (l : Date)
    (h : get_last_added_date df = some l) :
    l ∈ df.rows.filterMap Row.added ∧
      ∀ d ∈ df.rows.filterMap Row.added, d.days ≤ l.days := by
  unfold get_last_added_date at h
  cases he : df.rows.filterMap Row.added with
  | nil => rw [he] at h; exact absurd h (by simp)
  | cons a t =>
    rw [he] at h
    obtain ⟨m, hm, hmem, hle, hall⟩ := foldl_maxStep_some t a
    rw [List.foldl_cons] at h
    have hstep : maxStep none a = some a := rfl
    rw [hstep, hm] at h
    obtain rfl : m = l := by injection h
    refine ⟨?_, ?_⟩
    · rcases hmem with h1 | h1
      · exact h1 ▸ List.mem_cons_self a t
      · exact List.mem_cons_of_mem a h1
    · intro x hx
      rcases List.mem_cons.mp hx with h1 | h1
      · subst h1; exact hle
      · exact hall x h1

theorem get_last_none (df : DataFrame)
    (h : get_last_added_date df = none) :
    df.rows.filterMap Row.added = [] := by
  unfold get_last_added_date at h
  cases he : df.rows.filterMap Row.added with
  | nil => rfl
  | cons a t =>
    rw [he, List.foldl_cons] at h
    have hstep : maxStep none a = some a := rfl
    rw [hstep] at h
    obtain ⟨m, hm, -, -, -⟩ := foldl_maxStep_some t a
    rw [hm] at h
    exact absurd h (by simp)

/-- The merge leaves the store untouched when no fetched record survives
the novelty filter. -/
theorem append_eq_of_no_keep {df : DataFrame} {results : List FetchedRecord}
    {today : Date}
    (h : ∀ r ∈ results,
      keepRecord (existing_eids df) (existing_dois df) r = false) :
    append_new_rows df results today = df := by
  have hf : results.filter (keepRecord (existing_eids df) (existing_dois df)) = [] :=
    List.filter_eq_nil_iff.mpr (by intro a ha; simp [h a ha])
  simp [append_new_rows, newRowsOf, hf]

/- ===== Merge-engine helper lemmas ===== -/

theorem flagRow_eid (rows : List Row) (q : Row) : (flagRow rows q).eid = q.eid := by
  unfold flagRow
  split <;> (try split) <;> rfl

theorem flagRow_doi (rows : List Row) (q : Row) : (flagRow rows q).doi = q.doi := by
  unfold flagRow
  split <;> (try split) <;> rfl

theorem sortRows_perm (l : List Row) : (sortRows l).Perm l :=
  List.perm_insertionSort _ _

theorem sortRows_length (l : List Row) : (sortRows l).length = l.length :=
  List.length_insertionSort _ _

theorem eidsOf_append (l1 l2 : List Row) :
    eidsOf (l1 ++ l2) = eidsOf l1 ++ eidsOf l2 := by
  simp [eidsOf, List.filterMap_append]

theorem doisOf_append (l1 l2 : List Row) :
    doisOf (l1 ++ l2) = doisOf l1 ++ doisOf l2 := by
  simp [doisOf, List.filterMap_append]

theorem eidsOf_markDup (l : List Row) : eidsOf (markDup l) = eidsOf l := by
  unfold eidsOf markDup
  rw [List.filterMap_map]
  congr 1
  apply List.filterMap_congr
  intro x hx
  simp [Function.comp, flagRow_eid]

theorem doisOf_markDup (l : List Row) : doisOf (markDup l) = doisOf l := by
  unfold doisOf markDup
  rw [List.filterMap_map]
  congr 1
  apply List.filterMap_congr
  intro x hx
  simp [Function.comp, flagRow_doi]

theorem eidsOf_perm {l1 l2 : List Row} (h : l1.Perm l2) :
    (eidsOf l1).Perm (eidsOf l2) :=
  (h.filterMap _).map _

theorem doisOf_perm {l1 l2 : List Row} (h : l1.Perm l2) :
    (doisOf l1).Perm (doisOf l2) :=
  (h.filterMap _).map _

theorem countP_doi_markDup (l : List Row) (v : Option String) :
    (markDup l).countP (fun p => p.doi == v) =
      l.countP (fun p => p.doi == v) := by
  unfold markDup
  rw [List.countP_map]
  congr 1
  funext x
  simp [Function.comp, flagRow_doi]

theorem keepRecord_false_iff (eids dois : List String) (r : FetchedRecord) :
    keepRecord eids dois r = false ↔
      recEid r = "" ∨ recEid r ∈ eids ∨
        (recDoi r ≠ "" ∧ recDoi r ∈ dois) := by
  unfold keepRecord
  by_cases h1 : recEid r = "" <;>
    by_cases h2 : recEid r ∈ eids <;>
      by_cases h3 : recDoi r = "" <;>
        by_cases h4 : recDoi r ∈ dois <;>
          simp_all [List.elem_iff]

theorem keepRecord_true_iff (eids dois : List String) (r : FetchedRecord) :
    keepRecord eids dois r = true ↔
      recEid r ≠ "" ∧ recEid r ∉ eids ∧
        (recDoi r = "" ∨ recDoi r ∉ dois) := by
  have hf := keepRecord_false_iff eids dois r
  cases h : keepRecord eids dois r <;> rw [h] at hf <;> simp_all <;> tauto

theorem append_new_rows_of_nil (df : DataFrame) (results : List FetchedRecord)
    (today : Date) (h : newRowsOf df results today = []) :
    append_new_rows df results today = df := by
  simp [append_new_rows, h]

theorem append_new_rows_of_ne (df : DataFrame) (results : List FetchedRecord)
    (today : Date) (h : newRowsOf df results today ≠ []) :
    append_new_rows df results today =
      { hasDupDoiCol := df.hasDupDoiCol, hasYearCol := true
        rows := sortRows (if df.hasDupDoiCol then
            markDup (df.rows ++ newRowsOf df results today)
          else df.rows ++ newRowsOf df results today) } := by
  simp [append_new_rows, h]

theorem eidsOf_newRowsOf (df : DataFrame) (results : List FetchedRecord)
    (today : Date) :
    eidsOf (newRowsOf df results today) =
      (results.filter
        (keepRecord (existing_eids df) (existing_dois df))).map recEid := by
  unfold eidsOf newRowsOf
  rw [List.filterMap_map]
  have h1 : (Row.eid ∘ mkRow today) = (some ∘ recEid) := by
    funext r
    simp [mkRow, Function.comp]
  have h2 : (pyStrip ∘ recEid) = recEid := by
    funext r
    exact pyStrip_idem _
  rw [h1, List.filterMap_eq_map, List.map_map, h2]

theorem mem_existing_eids_append (df : DataFrame)
    (results : List FetchedRecord) (today : Date)
    (h : newRowsOf df results today ≠ []) (s : String) :
    s ∈ existing_eids (append_new_rows df results today) ↔
      s ∈ existing_eids df ∨ s ∈ eidsOf (newRowsOf df results today) := by
  rw [append_new_rows_of_ne df results today h]
  show s ∈ eidsOf (sortRows _) ↔ _
  rw [(eidsOf_perm (sortRows_perm _)).mem_iff]
  by_cases hc : df.hasDupDoiCol <;>
    simp [hc, eidsOf_markDup, eidsOf_append, existing_eids]

theorem mem_existing_dois_append (df : DataFrame)
    (results : List FetchedRecord) (today : Date)
    (h : newRowsOf df results today ≠ []) (s : String) :
    s ∈ existing_dois (append_new_rows df results today) ↔
      s ∈ existing_dois df ∨ s ∈ doisOf (newRowsOf df results today) := by
  rw [append_new_rows_of_ne df results today h]
  show s ∈ doisOf (sortRows _) ↔ _
  rw [(doisOf_perm (sortRows_perm _)).mem_iff]
  by_cases hc : df.hasDupDoiCol <;>
    simp [hc, doisOf_markDup, doisOf_append, existing_dois]

/- ===== Claim C6: novelty filter ===== -/

/-- C6: a fetched record is skipped by the merge exactly when its
stripped EID is empty, or its stripped EID is among the store's stripped
primary identifiers, or its stripped DOI is non-empty and among the
store's stripped secondary identifiers; each record that is not skipped
contributes exactly one row (the merged store grows by the count of
non-skipped records). -/
theorem C6_novelty_filter (df : DataFrame) (results : List FetchedRecord)
    (today : Date) :
    ((append_new_rows df results today).rows.length =
      df.rows.length +
        results.countP (keepRecord (existing_eids df) (existing_dois df))) ∧
    ∀ r : FetchedRecord,
      keepRecord (existing_eids df) (existing_dois df) r = false ↔
        (recEid r = "" ∨ recEid r ∈ existing_eids df ∨
          (recDoi r ≠ "" ∧ recDoi r ∈ existing_dois df)) := by
  refine ⟨?_, fun r => keepRecord_false_iff _ _ r⟩
  by_cases h : newRowsOf df results today = []
  · rw [append_new_rows_of_nil df results today h]
    have hfil : results.filter (keepRecord (existing_eids df) (existing_dois df)) = [] := by
      unfold newRowsOf at h
      exact List.map_eq_nil_iff.mp h
    rw [List.countP_eq_length_filter, hfil]
    simp
  · rw [append_new_rows_of_ne df results today h]
    show (sortRows _).length = _
    rw [sortRows_length]
    by_cases hc : df.hasDupDoiCol <;>
      simp [hc, markDup, newRowsOf, List.countP_eq_length_filter]

/- ===== Claim C3: window planner ===== -/

/-- C3 counterexample: the claim asserts `start < end` for every store,
"including stores whose maximum ingestion date lies in the future".  A
store whose (only) ingestion date is three days after today gives
`start = end`: the window is empty, so the claim as stated is false. -/
theorem C3_counterexample :
    ¬ ((plan_window { rows := [{ added := some ⟨13⟩ }] } ⟨10⟩).1.days <
       (plan_window { rows := [{ added := some ⟨13⟩ }] } ⟨10⟩).2.days) := by
  decide

/-- C3 (amended): the planner returns `end = today + 1` always, and
`start = today - 1` (with `start < end`) when no ingestion date exists;
when one exists, `start = last - OVERLAP_DAYS` where `last` is the
maximum recorded ingestion date, and the window is non-empty
(`start < end`) exactly when that maximum is less than three days after
today — for a maximum three or more days in the future the window is
empty. -/
theorem C3_plan_window (df : DataFrame) (today : Date) :
    (plan_window df today).2 = today.addDays 1 ∧
    (get_last_added_date df = none →
      (plan_window df today).1 = today.addDays (-1) ∧
      (plan_window df today).1.days < (plan_window df today).2.days) ∧
    (∀ last, get_last_added_date df = some last →
      (plan_window df today).1 = last.addDays (-OVERLAP_DAYS) ∧
      last ∈ df.rows.filterMap Row.added ∧
      (∀ d ∈ df.rows.filterMap Row.added, d.days ≤ last.days) ∧
      ((plan_window df today).1.days < (plan_window df today).2.days ↔
        last.days < today.days + 3)) := by
  refine ⟨?_, ?_, ?_⟩
  · simp [plan_window]
  · intro h
    constructor
    · simp [plan_window, h]
    · simp only [plan_window, h, Date.addDays]
      omega
  · intro last h
    obtain ⟨hmem, hmax⟩ := get_last_spec df last h
    refine ⟨by simp [plan_window, h], hmem, hmax, ?_⟩
    simp only [plan_window, h, Date.addDays, OVERLAP_DAYS]
    omega

/-- C3 witness: a store whose last ingestion date is one day before
today yields `start = last - 2` and a non-empty window. -/
theorem C3_plan_window_witness :
    (plan_window { rows := [{ added := some ⟨5⟩ }] } ⟨6⟩).1 = ⟨3⟩ ∧
    (plan_window { rows := [{ added := some ⟨5⟩ }] } ⟨6⟩).1.days <
      (plan_window { rows := [{ added := some ⟨5⟩ }] } ⟨6⟩).2.days := by
  have h := (C3_plan_window { rows := [{ added := some ⟨5⟩ }] } ⟨6⟩).2.2 ⟨5⟩ (by decide)
  exact ⟨by rw [h.1]; decide, (h.2.2.2).mpr (by decide)⟩

/- ===== Claim C9: `load_db` schema completion ===== -/

/-- C9 counterexample: loading a file without `Title` (or `Year`) column
does not create them — only `EID`, `DOI_clean` and `Added_to_db` are
created — so the claim that every required column including title and
publication year is present after load is false. -/
theorem C9_counterexample :
    "Title" ∉ (ensureCols ⟨["Authors"]⟩).cols ∧
    "Year" ∉ (ensureCols ⟨["Authors"]⟩).cols ∧
    load_db (some ⟨["Authors"]⟩) = .ok (ensureCols ⟨["Authors"]⟩) := by
  refine ⟨by decide, by decide, rfl⟩

/-- C9 (amended): after a successful load the table contains the
primary-identifier (`EID`), secondary-identifier (`DOI_clean`) and
ingestion-timestamp (`Added_to_db`) columns, each created when missing
from the file; the `Title` and `Year` columns are NOT created — they are
present after load exactly when the file already had them. -/
theorem mem_ite_append (l : List String) (a s : String) :
    (s ∈ if l.contains a then l else l ++ [a]) ↔ s ∈ l ∨ s = a := by
  split
  · next h =>
    rw [List.elem_iff] at h
    constructor
    · exact Or.inl
    · rintro (h1 | rfl)
      · exact h1
      · exact h
  · simp

theorem mem_ensureCols (f : ExcelFile) (s : String) :
    s ∈ (ensureCols f).cols ↔
      s ∈ f.cols ∨ s = "EID" ∨ s = "DOI_clean" ∨ s = "Added_to_db" := by
  unfold ensureCols
  simp only [mem_ite_append]
  tauto

theorem C9_load_db (f : ExcelFile) :
    load_db (some f) = .ok (ensureCols f) ∧
    "EID" ∈ (ensureCols f).cols ∧
    "DOI_clean" ∈ (ensureCols f).cols ∧
    "Added_to_db" ∈ (ensureCols f).cols ∧
    ("Title" ∈ (ensureCols f).cols ↔ "Title" ∈ f.cols) ∧
    ("Year" ∈ (ensureCols f).cols ↔ "Year" ∈ f.cols) := by
  refine ⟨rfl, ?_, ?_, ?_, ?_, ?_⟩ <;> simp [mem_ensureCols]

/- ===== Claim C10: frame effect of an all-skipped merge ===== -/

/-- C10: when no fetched record survives the novelty filter, the merge
returns the input store exactly unchanged (no flag recomputation, no
re-coercion, no re-sort). -/
theorem C10_no_survivor_frame (df : DataFrame) (results : List FetchedRecord)
    (today : Date)
    (h : ∀ r ∈ results,
      keepRecord (existing_eids df) (existing_dois df) r = false) :
    append_new_rows df results today = df :=
  append_eq_of_no_keep h

/-- C10 witness: a store containing EID `A` merged with a fetch result
whose only record carries (whitespace-padded) EID `A` is returned
unchanged. -/
theorem C10_no_survivor_frame_witness :
    append_new_rows { rows := [{ eid := some "A" }] }
      [{ eid := some " A " }] ⟨7⟩ = { rows := [{ eid := some "A" }] } :=
  C10_no_survivor_frame _ _ _ (by decide)

/- ===== Claim C2: duplicate-DOI flag ===== -/

/-- The claim's condition on a row: its secondary identifier is
non-empty and occurs on at least two rows of the store. -/
abbrev doiDupCond (rows : List Row) (q : Row) : Prop :=
  q.doi ≠ none ∧ q.doi ≠ some "" ∧
    2 ≤ rows.countP (fun p => p.doi == q.doi)

/-- C2 counterexample: a pre-existing row carrying a stale
`Duplicate DOI = "YES"` on a DOI that occurs only once keeps its flag
after a merge that adds a row, so "flag set iff the identifier occurs on
at least two rows" fails — the recomputation sets flags but never clears
them. -/
theorem C2_counterexample :
    ¬ ∀ q ∈ (append_new_rows
        { hasDupDoiCol := true
          rows := [{ eid := some "E0", doi := some "d", dupDoi := some "YES" }] }
        [{ eid := some "E9" }] ⟨100⟩).rows,
      (q.dupDoi = some "YES" ↔
        doiDupCond (append_new_rows
          { hasDupDoiCol := true
            rows := [{ eid := some "E0", doi := some "d", dupDoi := some "YES" }] }
          [{ eid := some "E9" }] ⟨100⟩).rows q) := by
  decide

/-- C2 (amended): provided the `Duplicate DOI` column exists and at
least one row is added, the recomputation is global over the entire
resulting store in one direction: every row whose non-empty secondary
identifier occurs on at least two rows of the whole resulting store ends
with the flag set to `"YES"`.  The converse does not hold (the
recomputation never clears a pre-existing flag), and no recomputation at
all happens when no row is added. -/
theorem C2_dup_flag (df : DataFrame) (results : List FetchedRecord)
    (today : Date) (hcol : df.hasDupDoiCol = true)
    (hnew : newRowsOf df results today ≠ []) :
    ∀ q ∈ (append_new_rows df results today).rows,
      doiDupCond (append_new_rows df results today).rows q →
        q.dupDoi = some "YES" := by
  intro q hq hcond
  have hout : append_new_rows df results today =
      { hasDupDoiCol := df.hasDupDoiCol, hasYearCol := true
        rows := sortRows (markDup (df.rows ++ newRowsOf df results today)) } := by
    rw [append_new_rows_of_ne df results today hnew]
    simp [hcol]
  rw [hout] at hq hcond
  have hq' : q ∈ markDup (df.rows ++ newRowsOf df results today) :=
    (sortRows_perm _).mem_iff.mp hq
  obtain ⟨p, hpL, hpq⟩ := List.mem_map.mp hq'
  obtain ⟨hdn, hde, hcount⟩ := hcond
  have hdoi : q.doi = p.doi := hpq ▸ flagRow_doi _ p
  obtain ⟨s, hs⟩ : ∃ s, p.doi = some s := by
    rw [hdoi] at hdn
    cases hps : p.doi with
    | none => exact absurd hps hdn
    | some s => exact ⟨s, rfl⟩
  have hsne : s ≠ "" := by
    intro hcontra
    apply hde
    rw [hdoi, hs, hcontra]
  have hcountL :
      2 ≤ (df.rows ++ newRowsOf df results today).countP
        (fun p => p.doi == some s) := by
    have e1 := (sortRows_perm
      (markDup (df.rows ++ newRowsOf df results today))).countP_eq
      (fun p => p.doi == some s)
    have e2 := countP_doi_markDup (df.rows ++ newRowsOf df results today)
      (some s)
    have hqs : q.doi = some s := by rw [hdoi, hs]
    rw [hqs] at hcount
    have hcount2 :
        2 ≤ (sortRows (markDup (df.rows ++ newRowsOf df results today))).countP
          (fun p => p.doi == some s) := hcount
    omega
  rw [← hpq]
  unfold flagRow
  rw [hs]
  rw [List.countP_append] at hcountL
  simp [hsne, hcountL]

/-- C2 witness: after a merge that adds one novel record to a store
holding two rows sharing DOI `a`, the flagged copy of the first of those
rows is in the result with its flag set. -/
theorem C2_dup_flag_witness :
    ({ eid := some "E0", doi := some "a", dupDoi := some "YES" } : Row).dupDoi
      = some "YES" :=
  C2_dup_flag
    { hasDupDoiCol := true
      rows := [{ eid := some "E0", doi := some "a" },
               { eid := some "E1", doi := some "a" }] }
    [{ eid := some "E9" }] ⟨5⟩ rfl (by decide)
    { eid := some "E0", doi := some "a", dupDoi := some "YES" }
    (by decide) (by decide)

/- ===== Claim C1: primary-identifier uniqueness ===== -/

/-- Rows `p` and `q` do not share a non-empty primary identifier. -/
def eidDistinct (p q : Row) : Prop :=
  p.eid = none ∨ p.eid = some "" ∨ p.eid ≠ q.eid

instance : DecidableRel eidDistinct := fun p q => by
  unfold eidDistinct
  infer_instance

theorem eidDistinct_symm : ∀ {p q : Row}, eidDistinct p q → eidDistinct q p := by
  intro p q h
  by_cases heq : q.eid = p.eid
  · rcases h with h1 | h1 | h1
    · exact Or.inl (heq.trans h1)
    · exact Or.inr (Or.inl (heq.trans h1))
    · exact absurd heq (fun hh => h1 hh.symm)
  · exact Or.inr (Or.inr heq)

/-- No two distinct rows of the list share a non-empty primary
identifier. -/
abbrev NoDupEid (rows : List Row) : Prop := rows.Pairwise eidDistinct

theorem pyStrip_recEid (r : FetchedRecord) : pyStrip (recEid r) = recEid r :=
  pyStrip_idem _

theorem NoDupEid_markDup {L : List Row} (h : L.Pairwise eidDistinct) :
    (markDup L).Pairwise eidDistinct := by
  unfold markDup
  rw [List.pairwise_map]
  apply h.imp
  intro a b hab
  simpa [eidDistinct, flagRow_eid] using hab

/-- C1 counterexample: the merge does not mark identifiers as seen while
it runs — the identifier sets are computed from the store once, before
the loop — so a fetch result containing the same novel EID twice
produces two rows with that EID even from a duplicate-free (here, empty)
store. -/
theorem C1_counterexample :
    NoDupEid ({} : DataFrame).rows ∧
    ¬ NoDupEid (append_new_rows {}
      [{ eid := some "E1" }, { eid := some "E1" }] ⟨100⟩).rows := by
  decide

/-- C1 (amended): provided additionally that no non-empty stripped EID
occurs in more than one fetched record, a store with pairwise distinct
non-empty EIDs merges to a store with pairwise distinct non-empty EIDs.
(The code does not mark identifiers as seen during the loop, so the
extra hypothesis is necessary: a repeated novel EID in one fetch result
is added twice.) -/
theorem C1_no_dup_eid (df : DataFrame) (results : List FetchedRecord)
    (today : Date) (hdf : NoDupEid df.rows)
    (hres : results.Pairwise
      (fun a b => recEid a ≠ "" → recEid a ≠ recEid b)) :
    NoDupEid (append_new_rows df results today).rows := by
  by_cases hnew : newRowsOf df results today = []
  · rw [append_new_rows_of_nil df results today hnew]
    exact hdf
  · rw [append_new_rows_of_ne df results today hnew]
    show NoDupEid (sortRows _)
    unfold NoDupEid
    rw [List.Perm.pairwise_iff eidDistinct_symm (sortRows_perm _)]
    have hcat :
        (df.rows ++ newRowsOf df results today).Pairwise eidDistinct := by
      rw [List.pairwise_append]
      refine ⟨hdf, ?_, ?_⟩
      · unfold newRowsOf
        rw [List.pairwise_map]
        have hkept := hres.filter
          (keepRecord (existing_eids df) (existing_dois df))
        apply hkept.imp_of_mem
        intro a b ha hb hab
        have hka := (List.mem_filter.mp ha).2
        obtain ⟨hane, -, -⟩ :=
          (keepRecord_true_iff (existing_eids df) (existing_dois df) a).mp hka
        refine Or.inr (Or.inr ?_)
        simpa [mkRow] using hab hane
      · intro p hp q hq
        unfold newRowsOf at hq
        obtain ⟨r, hrk, rfl⟩ := List.mem_map.mp hq
        have hkr := (List.mem_filter.mp hrk).2
        obtain ⟨hrne, hrnotin, -⟩ :=
          (keepRecord_true_iff (existing_eids df) (existing_dois df) r).mp hkr
        cases hpe : p.eid with
        | none => exact Or.inl hpe
        | some s =>
          by_cases hse : s = ""
          · exact Or.inr (Or.inl (by rw [hpe, hse]))
          · refine Or.inr (Or.inr ?_)
            intro hcontra
            apply hrnotin
            have hmem : s ∈ df.rows.filterMap Row.eid :=
              List.mem_filterMap.mpr ⟨p, hp, hpe⟩
            have hmem2 : pyStrip s ∈ existing_eids df :=
              List.mem_map_of_mem pyStrip hmem
            have hsr : s = recEid r := by
              rw [hpe] at hcontra
              have hmk : (mkRow today r).eid = some (recEid r) := rfl
              injection hcontra.trans hmk
            rw [hsr, pyStrip_recEid] at hmem2
            exact hmem2
    by_cases hc : df.hasDupDoiCol <;> simp only [hc, if_true, if_false]
    · exact NoDupEid_markDup hcat
    · exact hcat

/-- C1 witness: merging two records with distinct novel EIDs into a
one-row store yields a store with pairwise distinct EIDs. -/
theorem C1_no_dup_eid_witness :
    NoDupEid (append_new_rows { rows := [{ eid := some "A" }] }
      [{ eid := some "B" }, { eid := some "C" }] ⟨9⟩).rows :=
  C1_no_dup_eid { rows := [{ eid := some "A" }] }
    [{ eid := some "B" }, { eid := some "C" }] ⟨9⟩ (by decide) (by decide)

/- ===== Claims C4 and C8: partitioned fetcher ===== -/

theorem scopus_ok_processDay (search : String → SearchOutcome) (ed : Date)
    (L : List Date) (acc res : List FetchedRecord)
    (h : L.foldlM
      (fun acc d => do
        let rs ← processDay search ed d
        pure (acc ++ rs))
      acc = Except.ok res) :
    ∀ d ∈ L, ∃ rs, processDay search ed d = .ok rs := by
  induction L generalizing acc with
  | nil => intro d hd; cases hd
  | cons a t ih =>
    rw [List.foldlM_cons] at h
    cases hp : processDay search ed a with
    | ok rs =>
      rw [hp] at h
      intro d hd
      rcases List.mem_cons.mp hd with rfl | hd'
      · exact ⟨rs, hp⟩
      · exact ih _ (by simpa using h) d hd'
    | error m =>
      rw [hp] at h
      exact absurd h (by simp [Bind.bind, Except.bind])

/-- C4: an error on a day bucket's search that is not a cap-exceeded
condition makes the bucket's processing re-raise immediately, and the
whole fetch returns an error (no results). -/
theorem C4_noncap_error_aborts (search : String → SearchOutcome)
    (start_date end_date d : Date) (ex : ScopusErr)
    (hd : d ∈ daterange start_date end_date)
    (hq : search (build_query d (d.addDays 1)) = .err ex)
    (hcap : isCapCondition ex = false) :
    (∃ msg, processDay search end_date d = .error msg) ∧
    (∃ msg, scopus_daily_search search start_date end_date = .error msg) := by
  have hpd : ∃ msg, processDay search end_date d = .error msg := by
    cases ex with
    | scopus400 m => simp [isCapCondition] at hcap
    | scopusQueryError m =>
      exact ⟨"Falha crítica na busca para o dia " ++ toString d.days ++ ".",
        by simp [processDay, hq, hcap]⟩
    | otherExc m => exact ⟨m, by simp [processDay, hq]⟩
  refine ⟨hpd, ?_⟩
  cases hs : scopus_daily_search search start_date end_date with
  | ok res =>
    unfold scopus_daily_search at hs
    obtain ⟨rs, hrs⟩ := scopus_ok_processDay search end_date _ _ res hs d hd
    obtain ⟨m, hm⟩ := hpd
    rw [hrs] at hm
    cases hm
  | error m => exact ⟨m, rfl⟩

/-- C4 witness: a transport-style failure (an exception the fetch loop
does not catch) on the first day bucket aborts a two-day fetch. -/
theorem C4_noncap_error_aborts_witness :
    (∃ msg, processDay (fun _ => .err (.otherExc "503")) ⟨2⟩ ⟨0⟩ = .error msg) ∧
    (∃ msg, scopus_daily_search (fun _ => .err (.otherExc "503")) ⟨0⟩ ⟨2⟩ =
      .error msg) :=
  C4_noncap_error_aborts (fun _ => .err (.otherExc "503")) ⟨0⟩ ⟨2⟩ ⟨0⟩
    (.otherExc "503") (by decide) rfl rfl

theorem runFallback_foldl (search : String → SearchOutcome) (q : String)
    (years : List Int) (acc : List FetchedRecord) :
    years.foldl
      (fun acc y =>
        match search (fallbackQuery q y) with
        | .ok rs => acc ++ rs
        | .err _ => acc)
      acc =
    acc ++ (years.map (fun y =>
      match search (fallbackQuery q y) with
      | .ok rs => rs
      | .err _ => [])).flatten := by
  induction years generalizing acc with
  | nil => simp
  | cons y t ih =>
    rw [List.foldl_cons, List.map_cons, List.flatten_cons, ih]
    cases search (fallbackQuery q y) <;> simp

theorem mem_intRange (n : Nat) (start y : Int) :
    y ∈ intRange start n ↔ start ≤ y ∧ y < start + n := by
  induction n generalizing start with
  | zero => simp [intRange]
  | succ n ih =>
    simp [intRange, ih]
    omega

theorem nodup_intRange (n : Nat) (start : Int) : (intRange start n).Nodup := by
  induction n generalizing start with
  | zero => simp [intRange]
  | succ n ih =>
    refine List.Nodup.cons ?_ (ih (start + 1))
    intro hmem
    have := (mem_intRange n (start + 1) start).mp hmem
    omega

theorem mem_fallback_years (ed : Date) (y : Int) :
    y ∈ fallback_years ed ↔ 2000 ≤ y ∧ y < ed.year + 2 := by
  unfold fallback_years
  rw [mem_intRange]
  omega

theorem nodup_fallback_years (ed : Date) : (fallback_years ed).Nodup :=
  nodup_intRange _ _

/-- C8: when a day bucket's search signals a cap-exceeded condition, the
bucket's processing succeeds with exactly the concatenation of the
per-year fallback sub-query results — one sub-query per year, the years
ranging exactly over `2000 .. end_date.year + 1` with no repetition, and
a failing sub-query contributing zero results without aborting. -/
theorem C8_cap_fallback (search : String → SearchOutcome)
    (end_date d : Date) (ex : ScopusErr)
    (hq : search (build_query d (d.addDays 1)) = .err ex)
    (hcap : isCapCondition ex = true) :
    processDay search end_date d =
      .ok ((fallback_years end_date).map (fun y =>
        match search (fallbackQuery (build_query d (d.addDays 1)) y) with
        | .ok rs => rs
        | .err _ => [])).flatten ∧
    (∀ y : Int, y ∈ fallback_years end_date ↔
      2000 ≤ y ∧ y < end_date.year + 2) ∧
    (fallback_years end_date).Nodup := by
  refine ⟨?_, fun y => mem_fallback_years end_date y, nodup_fallback_years end_date⟩
  cases ex with
  | scopus400 m =>
    simp only [processDay, hq, hcap, if_true]
    unfold runFallback
    rw [runFallback_foldl]
    simp
  | scopusQueryError m =>
    simp only [processDay, hq, hcap, if_true]
    unfold runFallback
    rw [runFallback_foldl]
    simp
  | otherExc m => simp [isCapCondition] at hcap

/-- A search oracle that signals the result cap on whole-day queries and
answers every per-year fallback sub-query with one record. -/
def searchC8 : String → SearchOutcome := fun q =>
  if charsHaveSub "PUBYEAR".toList q.toList then .ok [{ eid := some "W8" }]
  else .err (.scopus400 "cap")

set_option maxRecDepth 100000 in
/-- C8 witness: on a cap-exceeded day bucket (with the window ending in
2024), the fallback queries every year 2000..2025 once and returns their
results. -/
theorem C8_cap_fallback_witness :
    processDay searchC8 ⟨19723⟩ ⟨0⟩ =
      .ok ((fallback_years ⟨19723⟩).map (fun y =>
        match searchC8 (fallbackQuery (build_query ⟨0⟩ (Date.addDays ⟨0⟩ 1)) y) with
        | .ok rs => rs
        | .err _ => [])).flatten ∧
    (∀ y : Int, y ∈ fallback_years ⟨19723⟩ ↔
      2000 ≤ y ∧ y < (⟨19723⟩ : Date).year + 2) ∧
    (fallback_years ⟨19723⟩).Nodup :=
  C8_cap_fallback searchC8 ⟨19723⟩ ⟨0⟩ (.scopus400 "cap") (by decide) rfl

/- ===== Claim C7: final ordering ===== -/

theorem addedLT_trans {a b c : Option Date} (h1 : addedLT a b = true)
    (h2 : addedLT b c = true) : addedLT a c = true := by
  cases a <;> cases b <;> cases c <;> simp_all [addedLT]
  omega

theorem addedLT_eq_of_not {a b : Option Date} (h1 : addedLT a b = false)
    (h2 : addedLT b a = false) : a = b := by
  cases a with
  | none =>
    cases b with
    | none => rfl
    | some y => simp [addedLT] at h2
  | some x =>
    cases b with
    | none => simp [addedLT] at h1
    | some y =>
      simp only [addedLT, decide_eq_false_iff_not, not_lt] at h1 h2
      have hdays : x.days = y.days := le_antisymm h1 h2
      have heq : x = y :=
        (show Date.mk x.days = Date.mk y.days by rw [hdays] : x = y)
      rw [heq]

theorem yearGE_trans {a b c : Option String} (h1 : yearGE a b = true)
    (h2 : yearGE b c = true) : yearGE a c = true := by
  cases a <;> cases b <;> cases c <;> simp_all [yearGE]
  next x y z => exact le_trans h2 h1

theorem yearGE_total (a b : Option String) :
    yearGE a b = true ∨ yearGE b a = true := by
  cases a with
  | none =>
    cases b with
    | none => exact Or.inl rfl
    | some y => exact Or.inr rfl
  | some x =>
    cases b with
    | none => exact Or.inl rfl
    | some y =>
      simp only [yearGE, Bool.not_eq_true', decide_eq_false_iff_not]
      rcases le_total x y with h | h
      · exact Or.inr (not_lt.mpr h)
      · exact Or.inl (not_lt.mpr h)

theorem rowLE_trans {p q r : Row} (h1 : rowLE p q = true)
    (h2 : rowLE q r = true) : rowLE p r = true := by
  unfold rowLE at h1 h2 ⊢
  rcases Bool.or_eq_true_iff.mp h1 with ha1 | hb1 <;>
    rcases Bool.or_eq_true_iff.mp h2 with ha2 | hb2
  · exact Bool.or_eq_true_iff.mpr (Or.inl (addedLT_trans ha1 ha2))
  · obtain ⟨hbeq, -⟩ := Bool.and_eq_true_iff.mp hb2
    have heq : q.added = r.added := by simpa using hbeq
    rw [← heq]
    exact Bool.or_eq_true_iff.mpr (Or.inl ha1)
  · obtain ⟨hbeq, -⟩ := Bool.and_eq_true_iff.mp hb1
    have heq : p.added = q.added := by simpa using hbeq
    rw [heq]
    exact Bool.or_eq_true_iff.mpr (Or.inl ha2)
  · obtain ⟨hbeq1, hy1⟩ := Bool.and_eq_true_iff.mp hb1
    obtain ⟨hbeq2, hy2⟩ := Bool.and_eq_true_iff.mp hb2
    have heq1 : p.added = q.added := by simpa using hbeq1
    have heq2 : q.added = r.added := by simpa using hbeq2
    refine Bool.or_eq_true_iff.mpr (Or.inr (Bool.and_eq_true_iff.mpr ⟨?_, ?_⟩))
    · simp [heq1, heq2]
    · exact yearGE_trans hy1 hy2

theorem rowLE_total (p q : Row) : rowLE p q = true ∨ rowLE q p = true := by
  by_cases h1 : addedLT p.added q.added = true
  · exact Or.inl (by simp [rowLE, h1])
  by_cases h2 : addedLT q.added p.added = true
  · exact Or.inr (by simp [rowLE, h2])
  have heq : p.added = q.added :=
    addedLT_eq_of_not (by simpa using h1) (by simpa using h2)
  rcases yearGE_total p.year q.year with h | h
  · exact Or.inl (by simp [rowLE, heq, h])
  · exact Or.inr (by simp [rowLE, heq.symm, h])

instance : IsTrans Row rowR := ⟨fun _ _ _ => rowLE_trans⟩

instance : IsTotal Row rowR := ⟨rowLE_total⟩

/-- The ordering the sort is meant to establish: each row comes no later
than every row after it, under the "ingestion timestamp descending, then
year descending, nulls last" key. -/
abbrev rowsSorted (rows : List Row) : Prop := rows.Pairwise rowR

theorem rowR_none_mono {p q : Row} (h : rowR p q) (hn : p.added = none) :
    q.added = none := by
  unfold rowR rowLE at h
  rw [hn] at h
  simp only [addedLT, Bool.false_or, Bool.and_eq_true] at h
  exact (by simpa using h.1 : none = q.added).symm

/-- C7 counterexample: when no fetched record survives the filter the
merge returns the store as-is, without sorting — here a store whose
null-timestamp row precedes its dated row is returned in that order, so
the claimed ordering does not hold "for every store and every sequence
of fetched records". -/
theorem C7_counterexample :
    ¬ rowsSorted (append_new_rows
      { rows := [{ added := none }, { added := some ⟨19723⟩ }] } [] ⟨0⟩).rows ∧
    (append_new_rows { rows := [{ added := none }, { added := some ⟨19723⟩ }] }
      [] ⟨0⟩).rows.map Row.added = [none, some ⟨19723⟩] := by
  decide

/-- C7 (amended): whenever at least one row is added, the merged store
is a permutation of the (flagged) concatenation that is sorted by
ingestion timestamp descending, tie-broken by year descending, nulls
last; rows lacking a timestamp come after all rows that have one; and
the sort is stable (any two rows in key order keep their relative
order).  When no row is added the store is returned unchanged, in its
original order. -/
theorem C7_sorted (df : DataFrame) (results : List FetchedRecord)
    (today : Date) (hnew : newRowsOf df results today ≠ []) :
    rowsSorted (append_new_rows df results today).rows ∧
    (append_new_rows df results today).rows.Pairwise
      (fun p q => p.added = none → q.added = none) ∧
    (append_new_rows df results today).rows.Perm
      (if df.hasDupDoiCol then markDup (df.rows ++ newRowsOf df results today)
        else df.rows ++ newRowsOf df results today) ∧
    ∀ a b : Row, rowR a b →
      [a, b].Sublist (if df.hasDupDoiCol
        then markDup (df.rows ++ newRowsOf df results today)
        else df.rows ++ newRowsOf df results today) →
      [a, b].Sublist (append_new_rows df results today).rows := by
  rw [append_new_rows_of_ne df results today hnew]
  refine ⟨List.sorted_insertionSort _ _, ?_, sortRows_perm _, ?_⟩
  · exact (List.sorted_insertionSort _ _).imp (fun h hn => rowR_none_mono h hn)
  · intro a b hab hsub
    exact List.pair_sublist_insertionSort hab hsub

/-- C7 witness: a store holding rows stamped 2024-01-01 and null, merged
with a record ingested 2024-01-03, comes out in the order 2024-01-03,
2024-01-01, null. -/
theorem C7_sorted_witness :
    rowsSorted (append_new_rows
      { rows := [{ eid := some "A", added := some ⟨19723⟩ },
                 { eid := some "B" }] }
      [{ eid := some "C" }] ⟨19725⟩).rows ∧
    (append_new_rows
      { rows := [{ eid := some "A", added := some ⟨19723⟩ },
                 { eid := some "B" }] }
      [{ eid := some "C" }] ⟨19725⟩).rows.map Row.added =
      [some ⟨19725⟩, some ⟨19723⟩, none] :=
  ⟨(C7_sorted _ _ _ (by decide)).1, by decide⟩

/- ===== Claim C5: idempotence of re-merge ===== -/

/-- C5: merging the same fetch results a second time (with the same run
date) leaves the store unchanged: every record is skipped on the second
run because the identifier sets are rebuilt from the updated store. -/
theorem C5_idempotent (df : DataFrame) (results : List FetchedRecord)
    (today : Date) :
    append_new_rows (append_new_rows df results today) results today =
      append_new_rows df results today := by
  by_cases hnew : newRowsOf df results today = []
  · rw [append_new_rows_of_nil df results today hnew]
    exact append_new_rows_of_nil df results today hnew
  · apply append_eq_of_no_keep
    intro r hr
    rw [keepRecord_false_iff]
    by_cases hk : keepRecord (existing_eids df) (existing_dois df) r = true
    · right; left
      rw [mem_existing_eids_append df results today hnew]
      right
      rw [eidsOf_newRowsOf]
      exact List.mem_map.mpr ⟨r, List.mem_filter.mpr ⟨hr, hk⟩, rfl⟩
    · have hk2 : keepRecord (existing_eids df) (existing_dois df) r = false := by
        simpa using hk
      rcases (keepRecord_false_iff _ _ r).mp hk2 with h | h | ⟨h1, h2⟩
      · exact Or.inl h
      · right; left
        rw [mem_existing_eids_append df results today hnew]
        exact Or.inl h
      · right; right
        refine ⟨h1, ?_⟩
        rw [mem_existing_dois_append df results today hnew]
        exact Or.inl h2

end PawTracker
